import Mathlib

/-!
Shallow embedding of the style-meter score/rank core
(src/src/rank.ts and the ScoreKeeper part of src/src/config.ts).

Numbers of the TypeScript source are modelled as rationals, events are
collected into explicit lists, and wall-clock time is passed in as an
argument, so that every operation is a pure function from a
`ScoreKeeperState` to a new state paired with the list of emitted events.
-/

namespace StyleMeter

/-- HSL color of a rank (src/src/rank.ts, `RankColor`). -/
structure RankColor where
  h : ℚ
  s : ℚ
  l : ℚ
  deriving DecidableEq, Repr

/-- A rank definition (src/src/rank.ts, `Rank`): display letter, rest of the
word, minimum score threshold to acquire this rank, and a css color. -/
structure Rank where
  text : String
  smallText : String
  score : ℚ
  color : RankColor
  deriving DecidableEq, Repr

/-- Configuration (src/src/config.ts, `StyleMeterConfig`): ranks sorted from
lowest to highest score threshold, scoring knobs, display and music knobs. -/
structure StyleMeterConfig where
  ranks : List Rank
  maxScore : ℚ
  gainFactor : ℚ
  degradationFactor : ℚ
  rankLetterFontSizePx : ℚ
  rankTextFontSizePx : ℚ
  lineHeightPx : ℚ
  rankFont : String
  musicFilepath : Option String
  maxVolume : ℚ
  deriving DecidableEq, Repr

/-- The period at which style degradation takes place
(src/src/config.ts, `STYLE_DEGRADE_PERIOD_MS`). -/
def STYLE_DEGRADE_PERIOD_MS : ℚ := 500

/-- The rate of style degradation in points/s^2
(src/src/config.ts, `STYLE_DEGRADE_ACC_PPS2`). -/
def STYLE_DEGRADE_ACC_PPS2 : ℚ := 2

/-- The max style point reward for content changes per event
(src/src/config.ts, `MAX_CHANGE_REWARD`). -/
def MAX_CHANGE_REWARD : ℚ := 5

/-- How many times more difficult it is to gain points at the highest rank
than without any rank (src/src/config.ts, `DIFFICULTY_FACTOR`). -/
def DIFFICULTY_FACTOR : ℚ := 4

/-- An emitted change notification: either a `ScoreChangeEvent` carrying
`{rankIndex, score}` or a `RankChangeEvent` carrying `{rankIndex}`
(src/src/config.ts). -/
inductive Event where
  | scoreChange (rankIndex : ℤ) (score : ℚ)
  | rankChange (rankIndex : ℤ)
  deriving DecidableEq, Repr

/-- The mutable state of a `ScoreKeeper` (src/src/config.ts): rank index
(`-1` means no ranking), score, and the `_lastUpdateTime` timestamp. -/
structure ScoreKeeperState where
  _rankIndex : ℤ
  _score : ℚ
  _lastUpdateTime : ℚ
  deriving DecidableEq, Repr

/-- The state a `ScoreKeeper` is constructed with:
`_rankIndex = -1`, `_score = 0`, `_lastUpdateTime = 0`. -/
def initState : ScoreKeeperState := ⟨-1, 0, 0⟩

/-- A default rank used only to totalise list indexing; the rank-lookup loop
only indexes in bounds, so it is never actually read. -/
def dfltRank : Rank := ⟨"", "", 0, ⟨0, 0, 0⟩⟩

/-- The countdown loop of `ScoreKeeper._getRankIndex`: with fuel `k`, test
indices `k-1, k-2, ..., 0` and return the first index `i` with
`score > ranks[i].score`, else `-1`. -/
def getRankIndexGo (ranks : List Rank) (score : ℚ) : ℕ → ℤ
  | 0 => -1
  | Nat.succ i =>
      if score > (ranks.getD i dfltRank).score then (i : ℤ)
      else getRankIndexGo ranks score i

/-- `ScoreKeeper._getRankIndex` (src/src/config.ts): scan the ranks array
from the last index down, return the first `i` whose threshold is strictly
below `score`; `-1` represents no style ranking. -/
def _getRankIndex (ranks : List Rank) (score : ℚ) : ℤ :=
  getRankIndexGo ranks score ranks.length

/-- The clamping step of `ScoreKeeper._changeScore`: after adding `amount`,
a score below `0` becomes `0` and a score above `config.maxScore` becomes
`config.maxScore`. -/
def clampScore (config : StyleMeterConfig) (x : ℚ) : ℚ :=
  if x < 0 then 0 else if x > config.maxScore then config.maxScore else x

/-- `ScoreKeeper._changeScore` (src/src/config.ts): add `amount` to the
score and clamp; if the clamped score equals the previous score, return
without events; otherwise recompute the rank index, fire a score-change
event, and fire a rank-change event exactly when the rank index changed. -/
def _changeScore (config : StyleMeterConfig) (s : ScoreKeeperState)
    (amount : ℚ) : ScoreKeeperState × List Event :=
  let prevScore := s._score
  let score := clampScore config (s._score + amount)
  if score = prevScore then
    (s, [])
  else
    let prevRankIndex := s._rankIndex
    let rankIndex := _getRankIndex config.ranks score
    let scoreEvents := [Event.scoreChange rankIndex score]
    let rankEvents :=
      if rankIndex ≠ prevRankIndex then [Event.rankChange rankIndex] else []
    (⟨rankIndex, score, s._lastUpdateTime⟩, scoreEvents ++ rankEvents)

/-- One entry of a text-document change event: the inserted text
(vscode's `TextDocumentContentChangeEvent`, as used by the source). -/
structure TextDocumentContentChangeEvent where
  text : String
  deriving DecidableEq, Repr

/-- `ScoreKeeper._getChangeSize` (src/src/config.ts): total length of the
inserted text across all content changes. -/
def _getChangeSize (contentChanges : List TextDocumentContentChangeEvent) : ℕ :=
  contentChanges.foldl (fun size change => size + change.text.length) 0

/-- `ScoreKeeper.onDidChangeTextDocument` (src/src/config.ts): reward the
change size capped at `MAX_CHANGE_REWARD`, divided by the difficulty curve
`rankProgress * (DIFFICULTY_FACTOR - 1) + 1`, scaled by `gainFactor`; then
unconditionally record `now` as `_lastUpdateTime`. -/
def onDidChangeTextDocument (config : StyleMeterConfig)
    (s : ScoreKeeperState) (contentChanges : List TextDocumentContentChangeEvent)
    (now : ℚ) : ScoreKeeperState × List Event :=
  let changeSize : ℚ := (_getChangeSize contentChanges : ℚ)
  let reward0 := changeSize
  let reward1 := if reward0 > MAX_CHANGE_REWARD then MAX_CHANGE_REWARD else reward0
  let rankProgress := ((s._rankIndex + 1 : ℤ) : ℚ) / (config.ranks.length : ℚ)
  let reward := reward1 / (rankProgress * (DIFFICULTY_FACTOR - 1) + 1)
  let result := _changeScore config s (reward * config.gainFactor)
  (⟨result.1._rankIndex, result.1._score, now⟩, result.2)

/-- The style-degradation timer body from the `ScoreKeeper` constructor
(src/src/config.ts): inactive time since `_lastUpdateTime`, capped at
`100000` ms, times `STYLE_DEGRADE_PERIOD_MS`, times the acceleration in
points per ms^2, times `degradationFactor`, applied as a negative delta.
The timestamp `_lastUpdateTime` is not touched. -/
def decayTick (config : StyleMeterConfig) (s : ScoreKeeperState)
    (now : ℚ) : ScoreKeeperState × List Event :=
  let inactiveTime0 := now - s._lastUpdateTime
  let inactiveTime := if inactiveTime0 > 100000 then 100000 else inactiveTime0
  let acc_ppms2 := STYLE_DEGRADE_ACC_PPS2 / 1000000
  let penalty := inactiveTime * STYLE_DEGRADE_PERIOD_MS * acc_ppms2
  _changeScore config s (-penalty * config.degradationFactor)

/-- One outside stimulus to a `ScoreKeeper`: a text-document change event
(a gain) or a firing of the degradation timer (a decay tick), each carrying
the wall-clock time at which it runs. -/
inductive Input where
  | change (contentChanges : List TextDocumentContentChangeEvent) (now : ℚ)
  | decay (now : ℚ)
  deriving DecidableEq, Repr

/-- Run one input against the state. -/
def step (config : StyleMeterConfig) (s : ScoreKeeperState) :
    Input → ScoreKeeperState × List Event
  | Input.change contentChanges now => onDidChangeTextDocument config s contentChanges now
  | Input.decay now => decayTick config s now

/-- Run a sequence of inputs, concatenating the emitted events in order. -/
def run (config : StyleMeterConfig) (s : ScoreKeeperState) :
    List Input → ScoreKeeperState × List Event
  | [] => (s, [])
  | i :: is =>
      let first := step config s i
      let rest := run config first.1 is
      (rest.1, first.2 ++ rest.2)

/-- The rank indices carried by the rank-change events of a trace, in order. -/
def rankChangePayloads (events : List Event) : List ℤ :=
  events.filterMap fun e =>
    match e with
    | Event.rankChange r => some r
    | Event.scoreChange _ _ => none

/-- The three-rank table of the spec's concrete scenarios
(thresholds 0, 20, 30, `maxScore` 40), used to instantiate the theorems. -/
def scenarioConfig : StyleMeterConfig :=
  { ranks := [⟨"D", "ope!", 0, ⟨180, 30, 65⟩⟩,
              ⟨"C", "razy!", 20, ⟨150, 30, 70⟩⟩,
              ⟨"B", "last!", 30, ⟨68, 30, 70⟩⟩],
    maxScore := 40,
    gainFactor := 1,
    degradationFactor := 1,
    rankLetterFontSizePx := 60,
    rankTextFontSizePx := 40,
    lineHeightPx := 20,
    rankFont := "georgia",
    musicFilepath := none,
    maxVolume := 15 / 100 }

/-- The threshold score of the rank at index `i` (the `score` field of
`ranks[i]`). -/
def threshold (ranks : List Rank) (i : ℕ) : ℚ := (ranks.getD i dfltRank).score

lemma getRankIndexGo_lt (ranks : List Rank) (score : ℚ) (k : ℕ) :
    getRankIndexGo ranks score k < (k : ℤ) := by
  induction k with
  | zero => simp only [getRankIndexGo]; omega
  | succ n ih => simp only [getRankIndexGo]; split_ifs <;> omega

lemma getRankIndexGo_spec (ranks : List Rank) (score : ℚ) (k : ℕ) :
    (getRankIndexGo ranks score k = -1 ∧
      ∀ i, i < k → ¬ threshold ranks i < score) ∨
    (∃ i, i < k ∧ getRankIndexGo ranks score k = (i : ℤ) ∧
      threshold ranks i < score ∧
      ∀ j, i < j → j < k → ¬ threshold ranks j < score) := by
  induction k with
  | zero =>
      left
      exact ⟨rfl, fun i hi => absurd hi (Nat.not_lt_zero i)⟩
  | succ n ih =>
      by_cases h : threshold ranks n < score
      · right
        refine ⟨n, Nat.lt_succ_self n, ?_, h, fun j hj hj' => absurd hj (by omega)⟩
        simp only [threshold] at h
        simp only [getRankIndexGo, gt_iff_lt]
        rw [if_pos h]
      · have hgo : getRankIndexGo ranks score (n + 1) = getRankIndexGo ranks score n := by
          have h' : ¬ (ranks.getD n dfltRank).score < score := by
            simpa only [threshold] using h
          simp only [getRankIndexGo, gt_iff_lt]
          rw [if_neg h']
        rcases ih with ⟨h1, h2⟩ | ⟨i, hik, hgoi, hsi, hmax⟩
        · left
          refine ⟨hgo.trans h1, ?_⟩
          intro i hi
          rcases Nat.lt_succ_iff_lt_or_eq.mp hi with h' | rfl
          · exact h2 i h'
          · exact h
        · right
          refine ⟨i, Nat.lt_succ_of_lt hik, hgo.trans hgoi, hsi, ?_⟩
          intro j hij hjk
          rcases Nat.lt_succ_iff_lt_or_eq.mp hjk with h' | rfl
          · exact hmax j hij h'
          · exact h

lemma getRankIndexGo_eq_of (ranks : List Rank) (score : ℚ) (i : ℕ) :
    ∀ k, i < k → threshold ranks i < score →
      (∀ j, i < j → j < k → ¬ threshold ranks j < score) →
      getRankIndexGo ranks score k = (i : ℤ) := by
  intro k
  induction k with
  | zero => intro h _ _; exact absurd h (Nat.not_lt_zero i)
  | succ n ih =>
      intro hik hi hmax
      rcases Nat.lt_succ_iff_lt_or_eq.mp hik with h' | rfl
      · have hn : ¬ (ranks.getD n dfltRank).score < score := by
          simpa only [threshold] using hmax n h' (Nat.lt_succ_self n)
        simp only [getRankIndexGo, gt_iff_lt]
        rw [if_neg hn]
        exact ih h' hi (fun j hj hj' => hmax j hj (Nat.lt_succ_of_lt hj'))
      · have hi' : (ranks.getD i dfltRank).score < score := by
          simpa only [threshold] using hi
        simp only [getRankIndexGo, gt_iff_lt]
        rw [if_pos hi']

lemma getRankIndexGo_mono (ranks : List Rank) (s1 s2 : ℚ) (h : s1 ≤ s2) (k : ℕ) :
    getRankIndexGo ranks s1 k ≤ getRankIndexGo ranks s2 k := by
  induction k with
  | zero => simp only [getRankIndexGo]; omega
  | succ n ih =>
      simp only [getRankIndexGo, gt_iff_lt]
      by_cases h1 : (ranks.getD n dfltRank).score < s1
      · rw [if_pos h1, if_pos (lt_of_lt_of_le h1 h)]
      · rw [if_neg h1]
        by_cases h2 : (ranks.getD n dfltRank).score < s2
        · rw [if_pos h2]
          exact le_of_lt (getRankIndexGo_lt ranks s1 n)
        · rw [if_neg h2]
          exact ih

lemma sorted_threshold_lt (config : StyleMeterConfig)
    (hs : config.ranks.Pairwise (fun a b => a.score < b.score))
    {i j : ℕ} (hij : i < j) (hj : j < config.ranks.length) :
    threshold config.ranks i < threshold config.ranks j := by
  have hi : i < config.ranks.length := lt_trans hij hj
  rw [threshold, threshold, List.getD_eq_getElem _ _ hi, List.getD_eq_getElem _ _ hj]
  exact List.pairwise_iff_get.mp hs ⟨i, hi⟩ ⟨j, hj⟩ hij

lemma threshold_nonneg (config : StyleMeterConfig)
    (h : ∀ r ∈ config.ranks, 0 ≤ r.score) {i : ℕ}
    (hi : i < config.ranks.length) : 0 ≤ threshold config.ranks i := by
  rw [threshold, List.getD_eq_getElem _ _ hi]
  exact h _ (List.getElem_mem hi)

lemma clampScore_mem (config : StyleMeterConfig) (hmax : 0 ≤ config.maxScore)
    (x : ℚ) : 0 ≤ clampScore config x ∧ clampScore config x ≤ config.maxScore := by
  unfold clampScore
  split_ifs with h1 h2
  · exact ⟨le_refl 0, hmax⟩
  · exact ⟨hmax, le_refl _⟩
  · exact ⟨not_lt.mp h1, not_lt.mp h2⟩

lemma changeScore_score_eq (config : StyleMeterConfig) (s : ScoreKeeperState)
    (amount : ℚ) :
    (_changeScore config s amount).1._score = clampScore config (s._score + amount) := by
  simp only [_changeScore]
  split_ifs with h
  · exact h.symm
  all_goals rfl

lemma changeScore_lastUpdate (config : StyleMeterConfig) (s : ScoreKeeperState)
    (amount : ℚ) :
    (_changeScore config s amount).1._lastUpdateTime = s._lastUpdateTime := by
  simp only [_changeScore]
  split_ifs <;> rfl

lemma changeScore_mem (config : StyleMeterConfig) (hmax : 0 ≤ config.maxScore)
    (s : ScoreKeeperState) (amount : ℚ) :
    0 ≤ (_changeScore config s amount).1._score ∧
      (_changeScore config s amount).1._score ≤ config.maxScore := by
  rw [changeScore_score_eq]
  exact clampScore_mem config hmax _

lemma step_score_mem (config : StyleMeterConfig) (hmax : 0 ≤ config.maxScore)
    (s : ScoreKeeperState) (i : Input) :
    0 ≤ (step config s i).1._score ∧ (step config s i).1._score ≤ config.maxScore := by
  cases i with
  | change contentChanges now =>
      simpa only [step, onDidChangeTextDocument] using changeScore_mem config hmax s _
  | decay now =>
      simpa only [step, decayTick] using changeScore_mem config hmax s _

lemma run_score_mem (config : StyleMeterConfig) (hmax : 0 ≤ config.maxScore)
    (inputs : List Input) :
    ∀ s : ScoreKeeperState, 0 ≤ s._score → s._score ≤ config.maxScore →
      0 ≤ (run config s inputs).1._score ∧
        (run config s inputs).1._score ≤ config.maxScore := by
  induction inputs with
  | nil => exact fun s h0 h1 => ⟨h0, h1⟩
  | cons i is ih =>
      intro s h0 h1
      simp only [run]
      exact ih _ (step_score_mem config hmax s i).1 (step_score_mem config hmax s i).2

/-- C1: with `maxScore > 0`, starting from score 0, under every sequence of
gain events and decay ticks the score stays in `[0, maxScore]`; moreover
every single `_changeScore` transition lands in that interval whatever the
starting state, because it clamps `score + amount` to it. -/
theorem score_always_in_range (config : StyleMeterConfig)
    (hmax : 0 < config.maxScore) (inputs : List Input) :
    (0 ≤ (run config initState inputs).1._score ∧
      (run config initState inputs).1._score ≤ config.maxScore) ∧
    ∀ (s : ScoreKeeperState) (amount : ℚ),
      0 ≤ (_changeScore config s amount).1._score ∧
        (_changeScore config s amount).1._score ≤ config.maxScore := by
  refine ⟨run_score_mem config hmax.le inputs initState (le_refl 0) hmax.le, ?_⟩
  intro s amount
  exact changeScore_mem config hmax.le s amount

/-- Witness for C1 at the scenario configuration and a concrete input list. -/
theorem score_always_in_range_witness :
    0 < scenarioConfig.maxScore ∧
    ((0 ≤ (run scenarioConfig initState
            [Input.change [⟨"abcdefgh"⟩] 100, Input.decay 600]).1._score ∧
      (run scenarioConfig initState
            [Input.change [⟨"abcdefgh"⟩] 100, Input.decay 600]).1._score ≤
        scenarioConfig.maxScore) ∧
    ∀ (s : ScoreKeeperState) (amount : ℚ),
      0 ≤ (_changeScore scenarioConfig s amount).1._score ∧
        (_changeScore scenarioConfig s amount).1._score ≤ scenarioConfig.maxScore) :=
  ⟨by norm_num [scenarioConfig],
   score_always_in_range scenarioConfig (by norm_num [scenarioConfig])
     [Input.change [⟨"abcdefgh"⟩] 100, Input.decay 600]⟩

lemma changeScore_noop (config : StyleMeterConfig) (s : ScoreKeeperState)
    (amount : ℚ) (h : clampScore config (s._score + amount) = s._score) :
    _changeScore config s amount = (s, []) := by
  simp only [_changeScore]
  rw [if_pos h]

/-- C3: a transition whose clamped score equals the previous score is a
silent no-op: the whole state (score, rank index, timestamp) is unchanged
and no score-change or rank-change event fires. -/
theorem noop_transition_is_silent (config : StyleMeterConfig)
    (s : ScoreKeeperState) (amount : ℚ)
    (h : clampScore config (s._score + amount) = s._score) :
    _changeScore config s amount = (s, []) :=
  changeScore_noop config s amount h

/-- Witness for C3: a gain of `+10` at `maxScore` is silent (spec scenario 3). -/
theorem noop_transition_is_silent_witness :
    clampScore scenarioConfig ((⟨2, 40, 0⟩ : ScoreKeeperState)._score + 10) =
      (⟨2, 40, 0⟩ : ScoreKeeperState)._score ∧
    _changeScore scenarioConfig ⟨2, 40, 0⟩ 10 = (⟨2, 40, 0⟩, []) :=
  ⟨by norm_num [clampScore, scenarioConfig],
   noop_transition_is_silent scenarioConfig ⟨2, 40, 0⟩ 10
     (by norm_num [clampScore, scenarioConfig])⟩

/-- C7 (amended): every gain event overwrites `_lastUpdateTime` with the
current time — whether or not the clamped score changed — and a decay tick
never touches it. -/
theorem lastUpdateTime_update_policy (config : StyleMeterConfig)
    (s : ScoreKeeperState) (contentChanges : List TextDocumentContentChangeEvent)
    (now tnow : ℚ) :
    (onDidChangeTextDocument config s contentChanges now).1._lastUpdateTime = now ∧
    (decayTick config s tnow).1._lastUpdateTime = s._lastUpdateTime := by
  constructor
  · simp only [onDidChangeTextDocument]
  · simp only [decayTick]
    exact changeScore_lastUpdate config s _

/-- C7 counterexample: at `maxScore`, a gain event leaves the clamped score
unchanged (40 stays 40) yet still overwrites `_lastUpdateTime` (0 becomes
777), refuting "the timestamp is updated exactly when a gain actually
changes the clamped score". -/
theorem lastUpdateTime_gain_cex :
    (onDidChangeTextDocument scenarioConfig ⟨2, 40, 0⟩ [⟨"abc"⟩] 777).1._score = 40 ∧
    (⟨2, 40, 0⟩ : ScoreKeeperState)._lastUpdateTime = 0 ∧
    (onDidChangeTextDocument scenarioConfig ⟨2, 40, 0⟩ [⟨"abc"⟩] 777).1._lastUpdateTime
      = 777 ∧
    (777 : ℚ) ≠ 0 := by
  have hsize : _getChangeSize [(⟨"abc"⟩ : TextDocumentContentChangeEvent)] = 3 := rfl
  refine ⟨?_, rfl, ?_, by norm_num⟩ <;>
  norm_num [onDidChangeTextDocument, _changeScore, clampScore, hsize, scenarioConfig,
    MAX_CHANGE_REWARD, DIFFICULTY_FACTOR, _getRankIndex, getRankIndexGo, dfltRank]

/-- C2: over a strictly-ascending rank table, `_getRankIndex` returns `-1`
exactly when no threshold is strictly below the score, and returns index `i`
exactly when rank `i`'s threshold is strictly below the score and `i` is the
highest such index (equivalently, the highest such threshold); in
particular, with a first threshold of `0`, a score of `0` maps to `-1`. -/
theorem rank_lookup_spec (config : StyleMeterConfig)
    (hsorted : config.ranks.Pairwise (fun a b => a.score < b.score)) :
    (∀ score : ℚ,
      (_getRankIndex config.ranks score = -1 ↔
        ∀ i, i < config.ranks.length → ¬ threshold config.ranks i < score) ∧
      (∀ i, i < config.ranks.length →
        (_getRankIndex config.ranks score = (i : ℤ) ↔
          threshold config.ranks i < score ∧
            ∀ j, j < config.ranks.length → threshold config.ranks j < score →
              j ≤ i ∧ threshold config.ranks j ≤ threshold config.ranks i))) ∧
    (config.ranks ≠ [] → threshold config.ranks 0 = 0 →
      _getRankIndex config.ranks 0 = -1) := by
  constructor
  · intro score
    constructor
    · constructor
      · intro hneg
        rcases getRankIndexGo_spec config.ranks score config.ranks.length with
          ⟨_, h2⟩ | ⟨i, _, hgoi, _, _⟩
        · exact h2
        · rw [_getRankIndex] at hneg
          rw [hneg] at hgoi
          omega
      · intro hall
        rcases getRankIndexGo_spec config.ranks score config.ranks.length with
          ⟨h1, _⟩ | ⟨i, hik, _, hsi, _⟩
        · exact h1
        · exact absurd hsi (hall i hik)
    · intro i hi
      constructor
      · intro heq
        rw [_getRankIndex] at heq
        rcases getRankIndexGo_spec config.ranks score config.ranks.length with
          ⟨h1, _⟩ | ⟨i', hik', hgoi', hsi', hmax'⟩
        · rw [h1] at heq
          omega
        · have hii : i' = i := by
            rw [hgoi'] at heq
            exact_mod_cast heq
          subst hii
          refine ⟨hsi', fun j hjn hq => ?_⟩
          have hji : j ≤ i' := by
            by_contra hgt
            exact hmax' j (by omega) hjn hq
          refine ⟨hji, ?_⟩
          rcases Nat.eq_or_lt_of_le hji with he | hlt
          · rw [he]
          · exact (sorted_threshold_lt config hsorted hlt hik').le
      · intro ⟨hqual, hmaxall⟩
        rw [_getRankIndex]
        apply getRankIndexGo_eq_of config.ranks score i config.ranks.length hi hqual
        intro j hij hjn hq
        have := (hmaxall j hjn hq).1
        omega
  · intro hne h0
    rcases getRankIndexGo_spec config.ranks 0 config.ranks.length with
      ⟨h1, _⟩ | ⟨i, hik, _, hsi, _⟩
    · exact h1
    · have hpos : 0 < config.ranks.length := List.length_pos.mpr hne
      have h0le : threshold config.ranks 0 ≤ threshold config.ranks i := by
        rcases Nat.eq_zero_or_pos i with rfl | hipos
        · exact le_refl _
        · exact (sorted_threshold_lt config hsorted hipos hik).le
      rw [h0] at h0le
      exact absurd hsi (not_lt.mpr h0le)

/-- Witness for C2 at the scenario configuration. -/
theorem rank_lookup_spec_witness :
    scenarioConfig.ranks.Pairwise (fun a b => a.score < b.score) ∧
    ((∀ score : ℚ,
      (_getRankIndex scenarioConfig.ranks score = -1 ↔
        ∀ i, i < scenarioConfig.ranks.length →
          ¬ threshold scenarioConfig.ranks i < score) ∧
      (∀ i, i < scenarioConfig.ranks.length →
        (_getRankIndex scenarioConfig.ranks score = (i : ℤ) ↔
          threshold scenarioConfig.ranks i < score ∧
            ∀ j, j < scenarioConfig.ranks.length →
              threshold scenarioConfig.ranks j < score →
              j ≤ i ∧ threshold scenarioConfig.ranks j ≤
                threshold scenarioConfig.ranks i))) ∧
    (scenarioConfig.ranks ≠ [] → threshold scenarioConfig.ranks 0 = 0 →
      _getRankIndex scenarioConfig.ranks 0 = -1)) :=
  ⟨by norm_num [scenarioConfig, List.pairwise_cons],
   rank_lookup_spec scenarioConfig
     (by norm_num [scenarioConfig, List.pairwise_cons])⟩

/-- C8: over a strictly-ascending rank table, the rank lookup is monotone in
the score, a score exactly at rank `i`'s threshold does not map to `i`, and
every score exceeding that threshold by at most some positive `ε₀` maps
to `i`. -/
theorem rank_lookup_monotone_and_boundary (config : StyleMeterConfig)
    (hsorted : config.ranks.Pairwise (fun a b => a.score < b.score))
    (i : ℕ) (hi : i < config.ranks.length) :
    (∀ s1 s2 : ℚ, s1 ≤ s2 →
      _getRankIndex config.ranks s1 ≤ _getRankIndex config.ranks s2) ∧
    _getRankIndex config.ranks (threshold config.ranks i) ≠ (i : ℤ) ∧
    ∃ e0 : ℚ, 0 < e0 ∧ ∀ e : ℚ, 0 < e → e ≤ e0 →
      _getRankIndex config.ranks (threshold config.ranks i + e) = (i : ℤ) := by
  refine ⟨?_, ?_, ?_⟩
  · intro s1 s2 h12
    rw [_getRankIndex, _getRankIndex]
    exact getRankIndexGo_mono config.ranks s1 s2 h12 config.ranks.length
  · intro heq
    rw [_getRankIndex] at heq
    rcases getRankIndexGo_spec config.ranks (threshold config.ranks i)
        config.ranks.length with ⟨h1, _⟩ | ⟨i', _, hgoi', hsi', _⟩
    · rw [h1] at heq
      omega
    · have hii : i' = i := by
        rw [hgoi'] at heq
        exact_mod_cast heq
      subst hii
      exact absurd hsi' (lt_irrefl _)
  · refine ⟨if h : i + 1 < config.ranks.length then
        threshold config.ranks (i + 1) - threshold config.ranks i else 1, ?_, ?_⟩
    · split_ifs with h
      · exact sub_pos.mpr (sorted_threshold_lt config hsorted (Nat.lt_succ_self i) h)
      · exact one_pos
    · intro e he he0
      rw [_getRankIndex]
      apply getRankIndexGo_eq_of config.ranks _ i config.ranks.length hi
        (lt_add_of_pos_right _ he)
      intro j hij hjn hlt
      have hsucc : i + 1 < config.ranks.length :=
        lt_of_le_of_lt (Nat.succ_le_of_lt hij) hjn
      rw [dif_pos hsucc] at he0
      have h1 : threshold config.ranks (i + 1) ≤ threshold config.ranks j := by
        rcases Nat.eq_or_lt_of_le (Nat.succ_le_of_lt hij) with he' | hlt2
        · exact le_of_eq (congrArg (threshold config.ranks) he')
        · exact (sorted_threshold_lt config hsorted hlt2 hjn).le
      linarith

/-- Witness for C8 at the scenario configuration and rank index 1. -/
theorem rank_lookup_monotone_and_boundary_witness :
    scenarioConfig.ranks.Pairwise (fun a b => a.score < b.score) ∧
    1 < scenarioConfig.ranks.length ∧
    ((∀ s1 s2 : ℚ, s1 ≤ s2 →
      _getRankIndex scenarioConfig.ranks s1 ≤ _getRankIndex scenarioConfig.ranks s2) ∧
    _getRankIndex scenarioConfig.ranks (threshold scenarioConfig.ranks 1) ≠ (1 : ℤ) ∧
    ∃ e0 : ℚ, 0 < e0 ∧ ∀ e : ℚ, 0 < e → e ≤ e0 →
      _getRankIndex scenarioConfig.ranks (threshold scenarioConfig.ranks 1 + e)
        = (1 : ℤ)) :=
  ⟨by norm_num [scenarioConfig, List.pairwise_cons],
   by norm_num [scenarioConfig],
   rank_lookup_monotone_and_boundary scenarioConfig
     (by norm_num [scenarioConfig, List.pairwise_cons]) 1
     (by norm_num [scenarioConfig])⟩

lemma getRankIndex_zero (config : StyleMeterConfig)
    (h : ∀ r ∈ config.ranks, 0 ≤ r.score) :
    _getRankIndex config.ranks 0 = -1 := by
  rw [_getRankIndex]
  rcases getRankIndexGo_spec config.ranks 0 config.ranks.length with
    ⟨h1, _⟩ | ⟨i, hik, _, hsi, _⟩
  · exact h1
  · exact absurd hsi (not_lt.mpr (threshold_nonneg config h hik))

lemma changeScore_rank_inv (config : StyleMeterConfig) (s : ScoreKeeperState)
    (amount : ℚ) (h : s._rankIndex = _getRankIndex config.ranks s._score) :
    (_changeScore config s amount).1._rankIndex =
      _getRankIndex config.ranks (_changeScore config s amount).1._score := by
  simp only [_changeScore]
  split_ifs with hc
  · exact h
  all_goals rfl

lemma step_rank_inv (config : StyleMeterConfig) (s : ScoreKeeperState) (i : Input)
    (h : s._rankIndex = _getRankIndex config.ranks s._score) :
    (step config s i).1._rankIndex =
      _getRankIndex config.ranks (step config s i).1._score := by
  cases i with
  | change contentChanges now =>
      simpa only [step, onDidChangeTextDocument] using
        changeScore_rank_inv config s _ h
  | decay now =>
      simpa only [step, decayTick] using changeScore_rank_inv config s _ h

lemma run_rank_inv (config : StyleMeterConfig) (inputs : List Input) :
    ∀ s : ScoreKeeperState, s._rankIndex = _getRankIndex config.ranks s._score →
      (run config s inputs).1._rankIndex =
        _getRankIndex config.ranks (run config s inputs).1._score := by
  induction inputs with
  | nil => exact fun s h => h
  | cons i is ih =>
      intro s h
      simp only [run]
      exact ih _ (step_rank_inv config s i h)

/-- C10: with nonnegative thresholds, from the initial state
`{score 0, rankIndex -1}` every sequence of gain events and decay ticks
keeps `rankIndex` equal to the rank lookup of the current score. -/
theorem rankIndex_derived_from_score (config : StyleMeterConfig)
    (h : ∀ r ∈ config.ranks, 0 ≤ r.score) (inputs : List Input) :
    (run config initState inputs).1._rankIndex =
      _getRankIndex config.ranks (run config initState inputs).1._score := by
  apply run_rank_inv
  show (-1 : ℤ) = _getRankIndex config.ranks 0
  exact (getRankIndex_zero config h).symm

/-- Witness for C10 at the scenario configuration and a concrete input list. -/
theorem rankIndex_derived_from_score_witness :
    (∀ r ∈ scenarioConfig.ranks, 0 ≤ r.score) ∧
    (run scenarioConfig initState
        [Input.change [⟨"hello"⟩] 50, Input.decay 550]).1._rankIndex =
      _getRankIndex scenarioConfig.ranks
        (run scenarioConfig initState
          [Input.change [⟨"hello"⟩] 50, Input.decay 550]).1._score :=
  ⟨by norm_num [scenarioConfig],
   rankIndex_derived_from_score scenarioConfig (by norm_num [scenarioConfig])
     [Input.change [⟨"hello"⟩] 50, Input.decay 550]⟩

/-- A trace is a concatenation of per-transition blocks: each block is a
lone score-change event, or a score-change event immediately followed by a
rank-change event carrying the same rank index. -/
inductive Blocks : List Event → Prop where
  | nil : Blocks []
  | score (r : ℤ) (x : ℚ) (rest : List Event) : Blocks rest →
      Blocks (Event.scoreChange r x :: rest)
  | scoreRank (r : ℤ) (x : ℚ) (rest : List Event) : Blocks rest →
      Blocks (Event.scoreChange r x :: Event.rankChange r :: rest)

lemma changeScore_shape (config : StyleMeterConfig) (s : ScoreKeeperState)
    (amount : ℚ) :
    ((_changeScore config s amount).1._rankIndex = s._rankIndex ∧
      ((_changeScore config s amount).2 = [] ∨
        (_changeScore config s amount).2 =
          [Event.scoreChange (_changeScore config s amount).1._rankIndex
            (_changeScore config s amount).1._score])) ∨
    ((_changeScore config s amount).1._rankIndex ≠ s._rankIndex ∧
      (_changeScore config s amount).2 =
        [Event.scoreChange (_changeScore config s amount).1._rankIndex
          (_changeScore config s amount).1._score,
         Event.rankChange (_changeScore config s amount).1._rankIndex]) := by
  simp only [_changeScore]
  split_ifs with h1 h2
  · exact Or.inl ⟨rfl, Or.inl rfl⟩
  · exact Or.inr ⟨h2, rfl⟩
  · exact Or.inl ⟨not_not.mp h2, Or.inr rfl⟩

lemma changeScore_events_ne_nil (config : StyleMeterConfig) (s : ScoreKeeperState)
    (amount : ℚ) (h : clampScore config (s._score + amount) ≠ s._score) :
    (_changeScore config s amount).2 ≠ [] := by
  simp only [_changeScore]
  rw [if_neg h]
  simp

lemma step_shape (config : StyleMeterConfig) (s : ScoreKeeperState) (i : Input) :
    ((step config s i).1._rankIndex = s._rankIndex ∧
      ((step config s i).2 = [] ∨
        (step config s i).2 =
          [Event.scoreChange (step config s i).1._rankIndex
            (step config s i).1._score])) ∨
    ((step config s i).1._rankIndex ≠ s._rankIndex ∧
      (step config s i).2 =
        [Event.scoreChange (step config s i).1._rankIndex
          (step config s i).1._score,
         Event.rankChange (step config s i).1._rankIndex]) := by
  cases i with
  | change contentChanges now =>
      simpa only [step, onDidChangeTextDocument] using changeScore_shape config s _
  | decay now =>
      simpa only [step, decayTick] using changeScore_shape config s _

lemma run_blocks (config : StyleMeterConfig) (inputs : List Input) :
    ∀ s : ScoreKeeperState, Blocks (run config s inputs).2 := by
  induction inputs with
  | nil => exact fun s => Blocks.nil
  | cons i is ih =>
      intro s
      simp only [run]
      rcases step_shape config s i with ⟨_, he | he⟩ | ⟨_, he⟩
      · rw [he]; exact ih _
      · rw [he]; exact Blocks.score _ _ _ (ih _)
      · rw [he]; exact Blocks.scoreRank _ _ _ (ih _)

lemma rankChangePayloads_append (l1 l2 : List Event) :
    rankChangePayloads (l1 ++ l2) =
      rankChangePayloads l1 ++ rankChangePayloads l2 :=
  List.filterMap_append l1 l2 _

lemma step_rank_payload (config : StyleMeterConfig) (s : ScoreKeeperState)
    (i : Input) :
    (rankChangePayloads (step config s i).2 = [] ∧
      (step config s i).1._rankIndex = s._rankIndex) ∨
    (rankChangePayloads (step config s i).2 = [(step config s i).1._rankIndex] ∧
      (step config s i).1._rankIndex ≠ s._rankIndex) := by
  rcases step_shape config s i with ⟨hr, he | he⟩ | ⟨hr, he⟩
  · exact Or.inl ⟨by rw [he]; rfl, hr⟩
  · exact Or.inl ⟨by rw [he]; rfl, hr⟩
  · exact Or.inr ⟨by rw [he]; rfl, hr⟩

lemma run_chain (config : StyleMeterConfig) (inputs : List Input) :
    ∀ s : ScoreKeeperState,
      List.Chain' (fun a b => a ≠ b)
        (s._rankIndex :: rankChangePayloads (run config s inputs).2) ∧
      (run config s inputs).1._rankIndex =
        (rankChangePayloads (run config s inputs).2).getLastD s._rankIndex := by
  induction inputs with
  | nil => exact fun s => ⟨List.chain'_singleton _, rfl⟩
  | cons i is ih =>
      intro s
      simp only [run, rankChangePayloads_append]
      rcases step_rank_payload config s i with ⟨hp, hr⟩ | ⟨hp, hr⟩
      · rw [hp, List.nil_append, ← hr]
        exact ih _
      · rw [hp]
        simp only [List.singleton_append, List.getLastD_cons]
        constructor
        · rw [List.chain'_cons]
          exact ⟨Ne.symm hr, (ih _).1⟩
        · exact (ih _).2

/-- C4: a score-changing transition always emits a score-change event and
emits a rank-change event exactly when the rank index changed, the
score-change event first; hence every trace from the initial state is a
concatenation of such blocks (each rank-change event rides immediately
behind a score-change event with the same rank index), and consecutive
rank-change events always carry different rank indices. -/
theorem event_emission_protocol (config : StyleMeterConfig)
    (s : ScoreKeeperState) (amount : ℚ) (inputs : List Input)
    (hchange : clampScore config (s._score + amount) ≠ s._score) :
    (((_changeScore config s amount).1._rankIndex = s._rankIndex ∧
       (_changeScore config s amount).2 =
         [Event.scoreChange (_changeScore config s amount).1._rankIndex
           (_changeScore config s amount).1._score]) ∨
     ((_changeScore config s amount).1._rankIndex ≠ s._rankIndex ∧
       (_changeScore config s amount).2 =
         [Event.scoreChange (_changeScore config s amount).1._rankIndex
           (_changeScore config s amount).1._score,
          Event.rankChange (_changeScore config s amount).1._rankIndex])) ∧
    Blocks (run config initState inputs).2 ∧
    List.Chain' (fun a b => a ≠ b)
      (rankChangePayloads (run config initState inputs).2) := by
  refine ⟨?_, run_blocks config inputs initState, ?_⟩
  · rcases changeScore_shape config s amount with ⟨hr, he | he⟩ | ⟨hr, he⟩
    · exact absurd he (changeScore_events_ne_nil config s amount hchange)
    · exact Or.inl ⟨hr, he⟩
    · exact Or.inr ⟨hr, he⟩
  · exact ((run_chain config inputs initState).1).tail

/-- Witness for C4 at the scenario configuration (gain of `+25` from
score 0) and a concrete input list. -/
theorem event_emission_protocol_witness :
    clampScore scenarioConfig (initState._score + 25) ≠ initState._score ∧
    ((((_changeScore scenarioConfig initState 25).1._rankIndex =
          initState._rankIndex ∧
       (_changeScore scenarioConfig initState 25).2 =
         [Event.scoreChange (_changeScore scenarioConfig initState 25).1._rankIndex
           (_changeScore scenarioConfig initState 25).1._score]) ∨
     ((_changeScore scenarioConfig initState 25).1._rankIndex ≠
          initState._rankIndex ∧
       (_changeScore scenarioConfig initState 25).2 =
         [Event.scoreChange (_changeScore scenarioConfig initState 25).1._rankIndex
           (_changeScore scenarioConfig initState 25).1._score,
          Event.rankChange (_changeScore scenarioConfig initState 25).1._rankIndex])) ∧
    Blocks (run scenarioConfig initState
      [Input.change [⟨"abcdefgh"⟩] 100, Input.decay 600]).2 ∧
    List.Chain' (fun a b => a ≠ b)
      (rankChangePayloads (run scenarioConfig initState
        [Input.change [⟨"abcdefgh"⟩] 100, Input.decay 600]).2)) :=
  ⟨by norm_num [clampScore, scenarioConfig, initState],
   event_emission_protocol scenarioConfig initState 25
     [Input.change [⟨"abcdefgh"⟩] 100, Input.decay 600]
     (by norm_num [clampScore, scenarioConfig, initState])⟩

/-- The effective decay-rate constant of the source: `STYLE_DEGRADE_PERIOD_MS`
times the degradation acceleration expressed in points per ms²
(`STYLE_DEGRADE_ACC_PPS2 / 1e6`); a decay tick's penalty is the capped
inactive time times this constant times `degradationFactor`. -/
def decayRateConstant : ℚ :=
  STYLE_DEGRADE_PERIOD_MS * (STYLE_DEGRADE_ACC_PPS2 / 1000000)

/-- C5: every decay tick applies, as a negative delta, the elapsed time
since `_lastUpdateTime` capped at the 100000 ms inactivity window, times the
fixed decay acceleration constant, times `degradationFactor`; in particular
at 5000 ms elapsed with `degradationFactor = 1` the tick applies exactly
`-(5000 * a)` for that constant `a`. -/
theorem decay_penalty_formula (config : StyleMeterConfig) (s : ScoreKeeperState)
    (now : ℚ) (h5 : now - s._lastUpdateTime = 5000)
    (hdf : config.degradationFactor = 1) :
    (∀ (c : StyleMeterConfig) (t : ScoreKeeperState) (tn : ℚ),
      decayTick c t tn =
        _changeScore c t
          (-(min (tn - t._lastUpdateTime) 100000 * decayRateConstant) *
            c.degradationFactor)) ∧
    decayTick config s now = _changeScore config s (-(5000 * decayRateConstant)) := by
  have hgen : ∀ (c : StyleMeterConfig) (t : ScoreKeeperState) (tn : ℚ),
      decayTick c t tn =
        _changeScore c t
          (-(min (tn - t._lastUpdateTime) 100000 * decayRateConstant) *
            c.degradationFactor) := by
    intro c t tn
    simp only [decayTick, decayRateConstant]
    congr 1
    have hmin : (if tn - t._lastUpdateTime > 100000 then (100000 : ℚ)
        else tn - t._lastUpdateTime) = min (tn - t._lastUpdateTime) 100000 := by
      rcases le_or_lt (tn - t._lastUpdateTime) 100000 with hle | hgt
      · rw [if_neg (not_lt.mpr hle), min_eq_left hle]
      · rw [if_pos hgt, min_eq_right hgt.le]
    rw [hmin]
    ring
  refine ⟨hgen, ?_⟩
  rw [hgen config s now, h5, hdf]
  norm_num [min_def]

/-- Witness for C5: a tick at time 5000 against the initial state. -/
theorem decay_penalty_formula_witness :
    (5000 : ℚ) - initState._lastUpdateTime = 5000 ∧
    scenarioConfig.degradationFactor = 1 ∧
    ((∀ (c : StyleMeterConfig) (t : ScoreKeeperState) (tn : ℚ),
      decayTick c t tn =
        _changeScore c t
          (-(min (tn - t._lastUpdateTime) 100000 * decayRateConstant) *
            c.degradationFactor)) ∧
    decayTick scenarioConfig initState 5000 =
      _changeScore scenarioConfig initState (-(5000 * decayRateConstant))) :=
  ⟨by norm_num [initState], rfl,
   decay_penalty_formula scenarioConfig initState 5000
     (by norm_num [initState]) rfl⟩

/-- C6: an activity event applies a gain delta of exactly
`gainFactor * min(size, MAX_CHANGE_REWARD)` divided by the difficulty
multiplier `1 + ((rankIndex+1)/ranksCount) * (DIFFICULTY_FACTOR - 1)`, and
then stamps the current time. -/
theorem gain_delta_formula (config : StyleMeterConfig) (s : ScoreKeeperState)
    (contentChanges : List TextDocumentContentChangeEvent) (now : ℚ)
    (hn : 0 < config.ranks.length) :
    onDidChangeTextDocument config s contentChanges now =
      (fun p : ScoreKeeperState × List Event =>
        ((⟨p.1._rankIndex, p.1._score, now⟩ : ScoreKeeperState), p.2))
        (_changeScore config s
          (config.gainFactor * min ((_getChangeSize contentChanges : ℚ))
              MAX_CHANGE_REWARD /
            (1 + (((s._rankIndex + 1 : ℤ) : ℚ) / (config.ranks.length : ℚ)) *
              (DIFFICULTY_FACTOR - 1)))) := by
  have hm : (if ((_getChangeSize contentChanges : ℚ)) > MAX_CHANGE_REWARD
      then MAX_CHANGE_REWARD else ((_getChangeSize contentChanges : ℚ)))
      = min ((_getChangeSize contentChanges : ℚ)) MAX_CHANGE_REWARD := by
    rcases le_or_lt ((_getChangeSize contentChanges : ℚ)) MAX_CHANGE_REWARD with
      hle | hgt
    · rw [if_neg (not_lt.mpr hle), min_eq_left hle]
    · rw [if_pos hgt, min_eq_right hgt.le]
  have hamount : (if ((_getChangeSize contentChanges : ℚ)) > MAX_CHANGE_REWARD
        then MAX_CHANGE_REWARD else ((_getChangeSize contentChanges : ℚ))) /
        ((((s._rankIndex + 1 : ℤ) : ℚ) / (config.ranks.length : ℚ)) *
          (DIFFICULTY_FACTOR - 1) + 1) * config.gainFactor
      = config.gainFactor * min ((_getChangeSize contentChanges : ℚ))
          MAX_CHANGE_REWARD /
        (1 + (((s._rankIndex + 1 : ℤ) : ℚ) / (config.ranks.length : ℚ)) *
          (DIFFICULTY_FACTOR - 1)) := by
    rw [hm]
    ring
  simp only [onDidChangeTextDocument]
  rw [hamount]

/-- Witness for C6 at the scenario configuration. -/
theorem gain_delta_formula_witness :
    0 < scenarioConfig.ranks.length ∧
    onDidChangeTextDocument scenarioConfig ⟨1, 25, 0⟩ [⟨"abcdefgh"⟩] 123 =
      (fun p : ScoreKeeperState × List Event =>
        ((⟨p.1._rankIndex, p.1._score, 123⟩ : ScoreKeeperState), p.2))
        (_changeScore scenarioConfig ⟨1, 25, 0⟩
          (scenarioConfig.gainFactor *
              min ((_getChangeSize [(⟨"abcdefgh"⟩ : TextDocumentContentChangeEvent)] : ℚ))
                MAX_CHANGE_REWARD /
            (1 + ((((⟨1, 25, 0⟩ : ScoreKeeperState)._rankIndex + 1 : ℤ) : ℚ) /
                (scenarioConfig.ranks.length : ℚ)) * (DIFFICULTY_FACTOR - 1)))) :=
  ⟨by norm_num [scenarioConfig],
   gain_delta_formula scenarioConfig ⟨1, 25, 0⟩ [⟨"abcdefgh"⟩] 123
     (by norm_num [scenarioConfig])⟩

/-- C9: an activity event with zero inserted text (for any state with an
in-range score) is a silent no-op: score and rank index are unchanged and
no event fires. -/
theorem zero_size_activity_noop (config : StyleMeterConfig)
    (s : ScoreKeeperState) (contentChanges : List TextDocumentContentChangeEvent)
    (now : ℚ) (hsize : _getChangeSize contentChanges = 0)
    (h0 : 0 ≤ s._score) (h1 : s._score ≤ config.maxScore) :
    (onDidChangeTextDocument config s contentChanges now).1._score = s._score ∧
    (onDidChangeTextDocument config s contentChanges now).1._rankIndex =
      s._rankIndex ∧
    (onDidChangeTextDocument config s contentChanges now).2 = [] := by
  have hclamp : clampScore config (s._score + 0) = s._score := by
    rw [add_zero]
    unfold clampScore
    rw [if_neg (not_lt.mpr h0), if_neg (not_lt.mpr h1)]
  have hamount : (if ((_getChangeSize contentChanges : ℚ)) > MAX_CHANGE_REWARD
        then MAX_CHANGE_REWARD else ((_getChangeSize contentChanges : ℚ))) /
        ((((s._rankIndex + 1 : ℤ) : ℚ) / (config.ranks.length : ℚ)) *
          (DIFFICULTY_FACTOR - 1) + 1) * config.gainFactor = 0 := by
    rw [hsize]
    norm_num [MAX_CHANGE_REWARD]
  simp only [onDidChangeTextDocument]
  rw [hamount, changeScore_noop config s 0 hclamp]
  exact ⟨rfl, rfl, rfl⟩

/-- Witness for C9: an activity event with no content changes at score 7. -/
theorem zero_size_activity_noop_witness :
    _getChangeSize ([] : List TextDocumentContentChangeEvent) = 0 ∧
    0 ≤ ((⟨0, 7, 3⟩ : ScoreKeeperState))._score ∧
    ((⟨0, 7, 3⟩ : ScoreKeeperState))._score ≤ scenarioConfig.maxScore ∧
    ((onDidChangeTextDocument scenarioConfig ⟨0, 7, 3⟩ [] 99).1._score =
        ((⟨0, 7, 3⟩ : ScoreKeeperState))._score ∧
      (onDidChangeTextDocument scenarioConfig ⟨0, 7, 3⟩ [] 99).1._rankIndex =
        ((⟨0, 7, 3⟩ : ScoreKeeperState))._rankIndex ∧
      (onDidChangeTextDocument scenarioConfig ⟨0, 7, 3⟩ [] 99).2 = []) :=
  ⟨rfl, by norm_num, by norm_num [scenarioConfig],
   zero_size_activity_noop scenarioConfig ⟨0, 7, 3⟩ [] 99 rfl
     (by norm_num) (by norm_num [scenarioConfig])⟩

end StyleMeter
